import Mathlib

/-!
Shallow embedding of the asynchronous job system in `src/server.ts`:
an in-memory job registry (`Map<string, Job>`), three HTTP handlers
(`POST /api/generate`, `GET /api/status/:id`, `GET /api/download/:id`)
and the background generation pipeline `generateProjectBackground`.
External collaborators (the OpenRouter call, `marked.parse`, puppeteer)
are modelled as an environment of outcomes; the pipeline body is a
straight-line translation of the `try/catch/finally` in the source.
-/

namespace ScholarGen

/-- `Job.status` field: `'processing' | 'completed' | 'error'`. -/
inductive Status where
  | processing
  | completed
  | error
deriving DecidableEq, Repr

/-- The `Job` record of `server.ts` (lines 24-32).  `result` is the
`Buffer` artifact, modelled as a byte list; `result` and `error` are
optional fields. -/
structure Job where
  id : String
  status : Status
  progress : Nat
  message : String
  result : Option (List Nat)
  error : Option String
  lastUpdated : Nat
deriving DecidableEq, Repr

/-- The in-memory store `const jobs = new Map<string, Job>()`,
modelled as an association list in insertion order. -/
abbrev Registry := List (String × Job)

/-- `jobs.get(id)`. -/
def Registry.get (r : Registry) (id : String) : Option Job :=
  (r.find? (fun p => p.1 == id)).map Prod.snd

/-- `jobs.set(id, j)`: JavaScript `Map.set` overwrites an existing
binding in place (keys are unique) and otherwise appends a new one. -/
def Registry.set (r : Registry) (id : String) (j : Job) : Registry :=
  match r with
  | [] => [(id, j)]
  | p :: ps => if p.1 == id then (id, j) :: ps else p :: Registry.set ps id j

/-- `jobs.delete(id)`. -/
def Registry.del (r : Registry) (id : String) : Registry :=
  r.filter (fun p => p.1 != id)

/-- A `Partial<Job>` as passed to `updateJob`: a field is `some v`
exactly when the call site lists it.  (`id` and `lastUpdated` are never
passed by any call site in the source.) -/
structure JobUpdate where
  status : Option Status := none
  progress : Option Nat := none
  message : Option String := none
  result : Option (List Nat) := none
  error : Option String := none
deriving DecidableEq, Repr

/-- `Object.assign(job, { ...updates, lastUpdated: Date.now() })`:
fields present in `updates` replace the stored ones, absent fields keep
their stored value, and `lastUpdated` is always refreshed. -/
def applyUpdate (j : Job) (u : JobUpdate) (now : Nat) : Job :=
  { j with
    status := u.status.getD j.status
    progress := u.progress.getD j.progress
    message := u.message.getD j.message
    result := match u.result with | some v => some v | none => j.result
    error := match u.error with | some v => some v | none => j.error
    lastUpdated := now }

/-- `updateJob(id, updates)` (server.ts lines 57-62).  Returns the new
registry together with whether the `console.log` line executed: the
function returns *before* logging when the id is unknown. -/
def updateJob (r : Registry) (id : String) (u : JobUpdate) (now : Nat) :
    Registry × Bool :=
  match r.get id with
  | none => (r, false)
  | some j => (r.set id (applyUpdate j u now), true)

/-- The record inserted by `POST /api/generate` (lines 69-75). -/
def initialJob (id : String) (now : Nat) : Job :=
  { id := id
    status := .processing
    progress := 0
    message := "Инициализация проекта..."
    result := none
    error := none
    lastUpdated := now }

/-- The synchronous part of the `POST /api/generate` handler: insert
the fresh record and return the job id.  `generateProjectBackground`
suspends at its first `await` before touching the registry, so no
pipeline update is visible before the response. -/
def postGenerate (r : Registry) (jobId : String) (now : Nat) :
    Registry × String :=
  (r.set jobId (initialJob jobId now), jobId)

/-- The body of `GET /api/status/:id` (lines 90-105): `none` is the
404 response, otherwise the `{status, progress, message, error}` JSON. -/
structure StatusResponse where
  status : Status
  progress : Nat
  message : String
  error : Option String
deriving DecidableEq, Repr

def statusHandler (r : Registry) (id : String) : Option StatusResponse :=
  (r.get id).map (fun j => ⟨j.status, j.progress, j.message, j.error⟩)

/-- Job-id generation `Math.random().toString(36).substring(7)`
(line 67), as a function of the base-36 string rendering of the random
number: `substring(7)` keeps the characters from index 7 on. -/
def jobIdOfRandomString (randBase36 : String) : String :=
  randBase36.drop 7

/-- `Number.prototype.toString(36)` on a nonnegative integer value
(`Math.random()` can return exactly `0`): base-36 digits `0-9a-z`. -/
def natToBase36 (n : Nat) : String :=
  ⟨Nat.toDigits 36 n⟩

/- ### The download endpoint and its delayed deletion timer -/

/-- Server state seen by `GET /api/download/:id`: the registry plus the
pending `setTimeout(() => jobs.delete(id), 60000)` timers, recorded as
`(id, fire time)`. -/
structure ServerState where
  reg : Registry
  timers : List (String × Nat)
deriving DecidableEq, Repr

/-- The deletion delay of `server.ts` line 122 (milliseconds). -/
def deletionDelay : Nat := 60000

/-- `GET /api/download/:id` (lines 108-123): 404 when the job is
missing or `job.result` is unset (a `Buffer`, even empty, is truthy in
JavaScript, so the guard `!job || !job.result` tests only presence);
otherwise send the artifact and schedule deletion after
`deletionDelay`. -/
def downloadHandler (s : ServerState) (id : String) (now : Nat) :
    ServerState × Option (List Nat) :=
  match s.reg.get id with
  | none => (s, none)
  | some j =>
    match j.result with
    | none => (s, none)
    | some buf => ({ s with timers := s.timers ++ [(id, now + deletionDelay)] }, some buf)

/-- Fire every pending timer whose scheduled time has been reached:
each runs `jobs.delete(id)`; fired timers are discarded. -/
def fireTimers (s : ServerState) (now : Nat) : ServerState :=
  { reg := (s.timers.filter (fun t => decide (t.2 ≤ now))).foldl
      (fun r t => r.del t.1) s.reg
    timers := s.timers.filter (fun t => decide (¬ t.2 ≤ now)) }

/- ### The generation pipeline `generateProjectBackground` -/

/-- Outcomes of the external collaborators consumed by one pipeline
run.  An `Except.error m` models the collaborator throwing an `Error`
whose extracted `errorMessage` is `m` (this also covers the
`TypeError` raised when `response.data.choices[0]` is missing).
`gen`'s success value is `response.data.choices[0].message.content`:
`none` models a `null` content field, `some s` a string. -/
structure Env where
  apiKey : Option String
  gen : Except String (Option String)
  transform : Except String String
  launch : Except String Unit
  newPage : Except String Unit
  setContent : Except String Unit
  pdf : Except String (List Nat)
deriving Repr

/-- JavaScript truthiness of the `markdownContent` value: `null` and
`""` are falsy (`if (!markdownContent) throw ...`). -/
def contentTruthy : Option String → Bool
  | none => false
  | some s => !s.isEmpty

/-- A plain stage update `updateJob(jobId, { progress, message })`. -/
def stageUpd (p : Nat) (m : String) : JobUpdate :=
  { progress := some p, message := some m }

/-- The `catch` block's update (lines 393-397):
`error: errorMessage || 'Server Error'` falls back exactly when the
message string is empty. -/
def errUpd (msg : String) : JobUpdate :=
  { status := some .error
    error := some (if msg.isEmpty then "Server Error" else msg)
    message := some "Произошла ошибка при генерации" }

/-- The success update (lines 381-386). -/
def completedUpd (bytes : List Nat) : JobUpdate :=
  { progress := some 100
    status := some .completed
    message := some "Готово!"
    result := some bytes }

/-- Result of one pipeline run: the ordered `updateJob` calls it
issues, and whether a puppeteer browser session was acquired
(`browser = await puppeteer.launch(...)` resolved) and released
(`finally { if (browser) await browser.close() }` ran `close`). -/
structure RunResult where
  events : List JobUpdate
  browserAcquired : Bool
  browserReleased : Bool
deriving Repr

/-- `generateProjectBackground` (lines 126-401) as a function of the
collaborator outcomes: a straight-line translation of the `try` body,
where the first collaborator failure jumps to the `catch` update and
the `finally` clause closes the browser exactly when it was
acquired. -/
def runPipeline (env : Env) : RunResult :=
  let e0 := [stageUpd 5 "Формирование структуры запроса...",
             stageUpd 10 "Консультация с ИИ (написание текста)..."]
  match env.apiKey with
  | none => ⟨e0 ++ [errUpd "OPENROUTER_API_KEY is not defined"], false, false⟩
  | some _ =>
  match env.gen with
  | .error m => ⟨e0 ++ [errUpd m], false, false⟩
  | .ok content =>
    let e1 := e0 ++ [stageUpd 45 "Обработка ответа от нейросети..."]
    if contentTruthy content = false then
      ⟨e1 ++ [errUpd "Empty response from AI"], false, false⟩
    else
      let e2 := e1 ++ [stageUpd 55 "Преобразование в академический формат..."]
      match env.transform with
      | .error m => ⟨e2 ++ [errUpd m], false, false⟩
      | .ok _ =>
        let e3 := e2 ++ [stageUpd 70 "Подготовка к печати PDF..."]
        match env.launch with
        | .error m => ⟨e3 ++ [errUpd m], false, false⟩
        | .ok _ =>
          match env.newPage with
          | .error m => ⟨e3 ++ [errUpd m], true, true⟩
          | .ok _ =>
            let e4 := e3 ++ [stageUpd 80 "Рендеринг документа..."]
            match env.setContent with
            | .error m => ⟨e4 ++ [errUpd m], true, true⟩
            | .ok _ =>
              let e5 := e4 ++ [stageUpd 90 "Финальная сборка файла..."]
              match env.pdf with
              | .error m => ⟨e5 ++ [errUpd m], true, true⟩
              | .ok bytes => ⟨e5 ++ [completedUpd bytes], true, true⟩

/-- `true` exactly when no collaborator fails, the API key is set and
the generated content is truthy: the run that reaches the success
update. -/
def envOk (env : Env) : Bool :=
  env.apiKey.isSome &&
  (match env.gen with
   | .error _ => false
   | .ok c => contentTruthy c) &&
  env.transform.toBool && env.launch.toBool && env.newPage.toBool &&
  env.setContent.toBool && env.pdf.toBool

/-- The successive registry states produced by applying a list of
`updateJob` calls, timestamps advancing by one per call (the head is
the state before any call). -/
def registryTrace (r : Registry) (id : String) :
    List JobUpdate → Nat → List Registry
  | [], _ => [r]
  | u :: us, t => r :: registryTrace (updateJob r id u t).1 id us (t + 1)

/-- The registry states observable while one job, created by
`POST /api/generate` into an empty registry, is driven by its
pipeline. -/
def runStates (id : String) (env : Env) (t0 : Nat) : List Registry :=
  registryTrace (postGenerate [] id t0).1 id (runPipeline env).events (t0 + 1)

/-- Apply a list of `updateJob` calls in order, timestamps advancing
by one per call. -/
def applyEvents (r : Registry) (id : String) :
    List JobUpdate → Nat → Registry
  | [], _ => r
  | u :: us, t => applyEvents (updateJob r id u t).1 id us (t + 1)

/-- The final registry after one job, created by `POST /api/generate`
into an empty registry, has been driven by its whole pipeline run. -/
def finalRegistry (id : String) (env : Env) (t0 : Nat) : Registry :=
  applyEvents (postGenerate [] id t0).1 id (runPipeline env).events (t0 + 1)

/- ### Job-level views of a run (the registry holds a single job) -/

/-- Apply a list of `updateJob` calls to a single job. -/
def applyJob (j : Job) : List JobUpdate → Nat → Job
  | [], _ => j
  | u :: us, t => applyJob (applyUpdate j u t) us (t + 1)

/-- The successive values of a single job under a list of `updateJob`
calls (the head is the value before any call). -/
def jobStates (j : Job) : List JobUpdate → Nat → List Job
  | [], _ => [j]
  | u :: us, t => j :: jobStates (applyUpdate j u t) us (t + 1)

/-- A job still untouched by any terminal transition: what every
pre-terminal pipeline state looks like. -/
def cleanProcessing (j : Job) : Prop :=
  j.status = .processing ∧ j.result = none ∧ j.error = none

/-- A pure stage update: only `progress` and `message` fields. -/
def isStageUpd (u : JobUpdate) : Prop :=
  u.status = none ∧ u.result = none ∧ u.error = none

instance (u : JobUpdate) : Decidable (isStageUpd u) := by
  unfold isStageUpd; exact inferInstance

/-- The `result`/`error` exclusivity invariant of the spec's data
model: neither is set while `processing`, exactly the matching one is
set in a terminal state. -/
def resultErrorInvariant (j : Job) : Prop :=
  (j.status = .processing → j.result = none ∧ j.error = none) ∧
  (j.status = .completed → j.result.isSome ∧ j.error = none) ∧
  (j.status = .error → j.error.isSome ∧ j.result = none)

/- ### Concrete fixtures used in witnesses and counterexamples -/

/-- An environment in which every collaborator succeeds. -/
def envAllOk : Env :=
  ⟨some "k", .ok (some "text"), .ok "html", .ok (), .ok (), .ok (), .ok [1, 2, 3]⟩

/-- An environment with no `OPENROUTER_API_KEY`. -/
def envNoKey : Env :=
  ⟨none, .ok (some "text"), .ok "html", .ok (), .ok (), .ok (), .ok [1, 2, 3]⟩

/-- An environment whose generation call returns an empty string. -/
def envEmptyGen : Env :=
  ⟨some "k", .ok (some ""), .ok "html", .ok (), .ok (), .ok (), .ok [1, 2, 3]⟩

/-- A finished job occupying an identifier before a colliding create. -/
def staleJob : Job :=
  { id := "a", status := .completed, progress := 100, message := "Готово!",
    result := some [7], error := none, lastUpdated := 0 }

/-- A completed job with a stored artifact, ready for download. -/
def doneJob : Job :=
  { id := "d", status := .completed, progress := 100, message := "Готово!",
    result := some [1], error := none, lastUpdated := 0 }

/- ### The stage-update prefixes of the pipeline -/

/-- The stage updates issued before the external generation call. -/
def stages10 : List JobUpdate :=
  [stageUpd 5 "Формирование структуры запроса...",
   stageUpd 10 "Консультация с ИИ (написание текста)..."]

def stages45 : List JobUpdate :=
  stages10 ++ [stageUpd 45 "Обработка ответа от нейросети..."]

def stages55 : List JobUpdate :=
  stages45 ++ [stageUpd 55 "Преобразование в академический формат..."]

def stages70 : List JobUpdate :=
  stages55 ++ [stageUpd 70 "Подготовка к печати PDF..."]

def stages80 : List JobUpdate :=
  stages70 ++ [stageUpd 80 "Рендеринг документа..."]

def stages90 : List JobUpdate :=
  stages80 ++ [stageUpd 90 "Финальная сборка файла..."]


/- ### Basic registry lemmas -/

theorem Registry.get_nil (id : String) : Registry.get [] id = none := rfl

theorem Registry.get_set_self (r : Registry) (id : String) (j : Job) :
    (r.set id j).get id = some j := by
  induction r with
  | nil => simp [Registry.set, Registry.get]
  | cons p ps ih =>
    by_cases h : p.1 == id
    · simp [Registry.set, Registry.get, h]
    · simpa [Registry.set, Registry.get, h] using ih

theorem Registry.get_set_ne (r : Registry) (a id : String) (j : Job)
    (h : a ≠ id) : (r.set a j).get id = r.get id := by
  have hbe : (a == id) = false := by simpa using h
  induction r with
  | nil => simp [Registry.set, Registry.get, List.find?, hbe]
  | cons p ps ih =>
    by_cases hp : p.1 == a
    · have hpa : p.1 = a := by simpa using hp
      simp [Registry.set, Registry.get, hp, List.find?, hpa, hbe]
    · by_cases hq : p.1 == id
      · simp [Registry.set, Registry.get, hp, List.find?, hq]
      · simpa [Registry.set, Registry.get, hp, List.find?, hq] using ih

theorem Registry.get_del (r : Registry) (a id : String) :
    (r.del a).get id = if a = id then none else r.get id := by
  induction r with
  | nil => simp [Registry.del, Registry.get]
  | cons p ps ih =>
    by_cases hp : p.1 == a
    · have hpa : p.1 = a := by simpa using hp
      by_cases hai : a = id
      · subst hai
        have := ih
        simp only [Registry.del, Registry.get] at this ⊢
        simp [hpa, this]
      · have : ¬ p.1 == id := by simp [hpa]; exact hai
        simpa [Registry.del, Registry.get, hpa, this, hai] using ih
    · have hne : (p.1 != a) = true := by simpa using hp
      by_cases hq : p.1 == id
      · have hqi : p.1 = id := by simpa using hq
        have hai : ¬ a = id := by
          intro h; exact hp (by simp [hqi, h])
        simp [Registry.del, Registry.get, hne, List.find?, hq, hai]
      · simpa [Registry.del, Registry.get, hne, List.find?, hq] using ih

/-- Once a key is absent, further deletions keep it absent. -/
theorem Registry.get_foldl_del_none (L : List (String × Nat))
    (r : Registry) (id : String) (h : r.get id = none) :
    (L.foldl (fun acc t => acc.del t.1) r).get id = none := by
  induction L generalizing r with
  | nil => simpa using h
  | cons t ts ih =>
    refine ih _ ?_
    rw [Registry.get_del]
    split <;> simp [h]

/-- Deleting every key in `L` removes `id` whenever `id` occurs in
`L`. -/
theorem Registry.get_foldl_del_mem (L : List (String × Nat))
    (r : Registry) (id : String) (h : id ∈ L.map Prod.fst) :
    (L.foldl (fun acc t => acc.del t.1) r).get id = none := by
  induction L generalizing r with
  | nil => simp at h
  | cons t ts ih =>
    rw [List.map_cons] at h
    rcases List.mem_cons.mp h with h1 | h1
    · subst h1
      exact Registry.get_foldl_del_none ts _ _ (by rw [Registry.get_del]; simp)
    · exact ih _ h1

/- ### Bridging a single-job registry to the job-level view -/

theorem Registry.get_singleton (id : String) (j : Job) :
    Registry.get [(id, j)] id = some j := by
  simp [Registry.get, List.find?]

theorem updateJob_singleton (id : String) (j : Job) (u : JobUpdate) (t : Nat) :
    updateJob [(id, j)] id u t = ([(id, applyUpdate j u t)], true) := by
  simp [updateJob, Registry.get_singleton, Registry.set]

theorem applyEvents_singleton (id : String) (j : Job) (es : List JobUpdate)
    (t : Nat) : applyEvents [(id, j)] id es t = [(id, applyJob j es t)] := by
  induction es generalizing j t with
  | nil => rfl
  | cons u us ih => simp [applyEvents, applyJob, updateJob_singleton, ih]

theorem registryTrace_singleton (id : String) (j : Job) (es : List JobUpdate)
    (t : Nat) :
    registryTrace [(id, j)] id es t =
      (jobStates j es t).map (fun k => [(id, k)]) := by
  induction es generalizing j t with
  | nil => rfl
  | cons u us ih => simp [registryTrace, jobStates, updateJob_singleton, ih]

theorem postGenerate_empty (id : String) (t0 : Nat) :
    (postGenerate [] id t0).1 = [(id, initialJob id t0)] := rfl

theorem jobStates_head? (j : Job) (es : List JobUpdate) (t : Nat) :
    (jobStates j es t).head? = some j := by
  cases es <;> simp [jobStates]

theorem applyJob_append (j : Job) (es fs : List JobUpdate) (t : Nat) :
    applyJob j (es ++ fs) t = applyJob (applyJob j es t) fs (t + es.length) := by
  induction es generalizing j t with
  | nil => simp [applyJob]
  | cons u us ih =>
    have harith : t + 1 + us.length = t + (us.length + 1) := by omega
    show applyJob (applyUpdate j u t) (us ++ fs) (t + 1) =
      applyJob (applyJob (applyUpdate j u t) us (t + 1)) fs (t + (us.length + 1))
    rw [ih, harith]

/- ### Clean-processing preservation through stage updates -/

theorem cleanProcessing_initialJob (id : String) (t : Nat) :
    cleanProcessing (initialJob id t) := by
  simp [cleanProcessing, initialJob]

theorem cleanProcessing_applyUpdate_stage (j : Job) (u : JobUpdate) (t : Nat)
    (hj : cleanProcessing j) (hu : isStageUpd u) :
    cleanProcessing (applyUpdate j u t) := by
  obtain ⟨h1, h2, h3⟩ := hj
  obtain ⟨g1, g2, g3⟩ := hu
  simp [cleanProcessing, applyUpdate, g1, g2, g3, h1, h2, h3]

theorem applyJob_stages_clean (es : List JobUpdate) (j : Job) (t : Nat)
    (hj : cleanProcessing j) (hes : ∀ u ∈ es, isStageUpd u) :
    cleanProcessing (applyJob j es t) := by
  induction es generalizing j t with
  | nil => exact hj
  | cons u us ih =>
    exact ih _ _ (cleanProcessing_applyUpdate_stage _ _ _ hj (hes u (by simp)))
      (fun v hv => hes v (by simp [hv]))

theorem resultErrorInvariant_of_clean (j : Job) (h : cleanProcessing j) :
    resultErrorInvariant j := by
  obtain ⟨h1, h2, h3⟩ := h
  refine ⟨fun _ => ⟨h2, h3⟩, fun hc => ?_, fun hc => ?_⟩ <;>
    rw [h1] at hc <;> cases hc

/-- Every job value along a run whose events are stage updates followed
by one terminal update satisfies the `result`/`error` exclusivity
invariant. -/
theorem jobStates_invariant (ss : List JobUpdate) (term : JobUpdate)
    (j0 : Job) (t : Nat) (h0 : cleanProcessing j0)
    (hss : ∀ u ∈ ss, isStageUpd u)
    (hterm : (∃ m, term = errUpd m) ∨ (∃ b, term = completedUpd b)) :
    ∀ j ∈ jobStates j0 (ss ++ [term]) t, resultErrorInvariant j := by
  induction ss generalizing j0 t with
  | nil =>
    intro j hj
    simp only [List.nil_append, jobStates, List.mem_cons,
      List.not_mem_nil, or_false] at hj
    rcases hj with rfl | rfl
    · exact resultErrorInvariant_of_clean _ h0
    · obtain ⟨hs, hr, he⟩ := h0
      rcases hterm with ⟨m, rfl⟩ | ⟨b, rfl⟩ <;>
        simp [resultErrorInvariant, applyUpdate, errUpd, completedUpd, hr, he]
  | cons u us ih =>
    intro j hj
    simp only [List.cons_append, jobStates, List.mem_cons] at hj
    rcases hj with rfl | h
    · exact resultErrorInvariant_of_clean _ h0
    · exact ih _ _
        (cleanProcessing_applyUpdate_stage _ _ _ h0 (hss u (by simp)))
        (fun v hv => hss v (by simp [hv])) j h

/-- In a failing run no state is ever `completed` and no artifact is
ever stored. -/
theorem jobStates_error_run (ss : List JobUpdate) (m : String)
    (j0 : Job) (t : Nat) (h0 : cleanProcessing j0)
    (hss : ∀ u ∈ ss, isStageUpd u) :
    ∀ j ∈ jobStates j0 (ss ++ [errUpd m]) t,
      j.status ≠ .completed ∧ j.result = none := by
  induction ss generalizing j0 t with
  | nil =>
    intro j hj
    simp only [List.nil_append, jobStates, List.mem_cons,
      List.not_mem_nil, or_false] at hj
    obtain ⟨hs, hr, he⟩ := h0
    rcases hj with rfl | rfl
    · exact ⟨by simp [hs], hr⟩
    · simp [applyUpdate, errUpd, hr]
  | cons u us ih =>
    intro j hj
    simp only [List.cons_append, jobStates, List.mem_cons] at hj
    rcases hj with rfl | h
    · obtain ⟨hs, hr, he⟩ := h0
      exact ⟨by simp [hs], hr⟩
    · exact ih _ _
        (cleanProcessing_applyUpdate_stage _ _ _ h0 (hss u (by simp)))
        (fun v hv => hss v (by simp [hv])) j h

/- ### Monotone progress along a run -/

theorem jobStates_progress_chain (es : List JobUpdate) (j0 : Job) (t : Nat)
    (h : List.Chain' (· < ·) (j0.progress :: es.filterMap JobUpdate.progress)) :
    List.Chain' (· ≤ ·) ((jobStates j0 es t).map Job.progress) := by
  induction es generalizing j0 t with
  | nil => simp [jobStates]
  | cons u us ih =>
    rw [jobStates, List.map_cons, List.chain'_cons']
    cases hu : u.progress with
    | none =>
      have hp : (applyUpdate j0 u t).progress = j0.progress := by
        simp [applyUpdate, hu]
      have h' := h
      rw [List.filterMap_cons, hu] at h'
      refine ⟨?_, ih _ _ (by rw [hp]; exact h')⟩
      intro y hy
      rw [List.head?_map, jobStates_head?] at hy
      have hy' : (applyUpdate j0 u t).progress = y := by simpa using hy
      subst hy'
      rw [hp]
    | some p =>
      have hp : (applyUpdate j0 u t).progress = p := by
        simp [applyUpdate, hu]
      have h' := h
      rw [List.filterMap_cons, hu] at h'
      rw [List.chain'_cons] at h'
      refine ⟨?_, ih _ _ (by rw [hp]; exact h'.2)⟩
      intro y hy
      rw [List.head?_map, jobStates_head?] at hy
      have hy' : (applyUpdate j0 u t).progress = y := by simpa using hy
      subst hy'
      rw [hp]
      exact Nat.le_of_lt h'.1

/- ### Shape of a pipeline run -/

@[simp] theorem progress_stageUpd (p : Nat) (m : String) :
    (stageUpd p m).progress = some p := rfl

@[simp] theorem progress_errUpd (m : String) :
    (errUpd m).progress = none := rfl

@[simp] theorem progress_completedUpd (b : List Nat) :
    (completedUpd b).progress = some 100 := rfl

/-- Every pipeline run is a list of pure stage updates followed by one
terminal update — the catch block's error update exactly when some
collaborator fails (`envOk` false), the success update exactly when
none does — and its progress checkpoints are strictly increasing from
the initial `0`. -/
theorem runPipeline_shape (env : Env) :
    ∃ ss : List JobUpdate,
      (∀ u ∈ ss, isStageUpd u) ∧
      List.Chain' (· < ·)
        (0 :: (runPipeline env).events.filterMap JobUpdate.progress) ∧
      ((envOk env = false ∧
          ∃ m, (runPipeline env).events = ss ++ [errUpd m]) ∨
       (envOk env = true ∧
          ∃ b, (runPipeline env).events = ss ++ [completedUpd b])) := by
  obtain ⟨key, gen, tr, la, np, sc, pdf⟩ := env
  cases key with
  | none =>
    refine ⟨stages10, by decide, ?_,
      Or.inl ⟨rfl, "OPENROUTER_API_KEY is not defined", by
        simp [runPipeline, stages10]⟩⟩
    simp [runPipeline, stages10]
  | some k =>
    cases gen with
    | error m =>
      refine ⟨stages10, by decide, ?_,
        Or.inl ⟨rfl, m, by simp [runPipeline, stages10]⟩⟩
      simp [runPipeline, stages10]
    | ok c =>
      cases hc : contentTruthy c with
      | false =>
        refine ⟨stages45, by decide, ?_,
          Or.inl ⟨by simp [envOk, hc], "Empty response from AI", by
            simp [runPipeline, hc, stages45, stages10]⟩⟩
        simp [runPipeline, hc, stages45, stages10]
      | true =>
        cases tr with
        | error m =>
          refine ⟨stages55, by decide, ?_,
            Or.inl ⟨by simp [envOk, hc, Except.toBool], m, by
              simp [runPipeline, hc, stages55, stages45, stages10]⟩⟩
          simp [runPipeline, hc, stages55, stages45, stages10]
        | ok html =>
          cases la with
          | error m =>
            refine ⟨stages70, by decide, ?_,
              Or.inl ⟨by simp [envOk, hc, Except.toBool], m, by
                simp [runPipeline, hc, stages70, stages55, stages45, stages10]⟩⟩
            simp [runPipeline, hc, stages70, stages55, stages45, stages10]
          | ok _ =>
            cases np with
            | error m =>
              refine ⟨stages70, by decide, ?_,
                Or.inl ⟨by simp [envOk, hc, Except.toBool], m, by
                  simp [runPipeline, hc, stages70, stages55, stages45, stages10]⟩⟩
              simp [runPipeline, hc, stages70, stages55, stages45, stages10]
            | ok _ =>
              cases sc with
              | error m =>
                refine ⟨stages80, by decide, ?_,
                  Or.inl ⟨by simp [envOk, hc, Except.toBool], m, by
                    simp [runPipeline, hc, stages80, stages70, stages55,
                      stages45, stages10]⟩⟩
                simp [runPipeline, hc, stages80, stages70, stages55,
                  stages45, stages10]
              | ok _ =>
                cases pdf with
                | error m =>
                  refine ⟨stages90, by decide, ?_,
                    Or.inl ⟨by simp [envOk, hc, Except.toBool], m, by
                      simp [runPipeline, hc, stages90, stages80, stages70,
                        stages55, stages45, stages10]⟩⟩
                  simp [runPipeline, hc, stages90, stages80, stages70,
                    stages55, stages45, stages10]
                | ok b =>
                  refine ⟨stages90, by decide, ?_,
                    Or.inr ⟨by simp [envOk, hc, Except.toBool], b, by
                      simp [runPipeline, hc, stages90, stages80, stages70,
                        stages55, stages45, stages10]⟩⟩
                  simp [runPipeline, hc, stages90, stages80, stages70,
                    stages55, stages45, stages10]

/-- The `finally` clause closes the browser exactly when
`puppeteer.launch` handed one out. -/
theorem runPipeline_browser (env : Env) :
    (runPipeline env).browserReleased = (runPipeline env).browserAcquired := by
  obtain ⟨key, gen, tr, la, np, sc, pdf⟩ := env
  cases key with
  | none => rfl
  | some k =>
    cases gen with
    | error m => rfl
    | ok c =>
      cases hc : contentTruthy c with
      | false => simp [runPipeline, hc]
      | true =>
        cases tr with
        | error m => simp [runPipeline, hc]
        | ok html =>
          cases la with
          | error m => simp [runPipeline, hc]
          | ok _ =>
            cases np with
            | error m => simp [runPipeline, hc]
            | ok _ =>
              cases sc with
              | error m => simp [runPipeline, hc]
              | ok _ =>
                cases pdf with
                | error m => simp [runPipeline, hc]
                | ok b => simp [runPipeline, hc]

/- ### Observation helper -/

theorem filterMap_singleton_progress (id : String) (L : List Job) :
    (L.map (fun k => ([(id, k)] : Registry))).filterMap
      (fun r => (Registry.get r id).map Job.progress) = L.map Job.progress := by
  induction L with
  | nil => rfl
  | cons k ks ih =>
    simp [List.filterMap_cons, Registry.get_singleton, ih]

theorem applyJob_single (j : Job) (u : JobUpdate) (t : Nat) :
    applyJob j [u] t = applyUpdate j u t := rfl

/- ### Claim theorems -/

/-- C1: on any collaborator failure at any pipeline stage, the job ends
with `status = error`, a recorded error description and the localized
failure message; the error update is the last update issued (no stage
after the failure point executes), all earlier updates are plain stage
updates with strictly increasing checkpoints (no stage is retried), and
the job is not left in `processing`. -/
theorem generate_failure_records_error (env : Env) (id : String) (t0 : Nat)
    (hfail : envOk env = false) :
    (∃ j, (finalRegistry id env t0).get id = some j ∧
        j.status = .error ∧ j.error.isSome = true ∧
        j.message = "Произошла ошибка при генерации" ∧ j.result = none) ∧
    (∃ ss m, (runPipeline env).events = ss ++ [errUpd m] ∧
        ∀ u ∈ ss, isStageUpd u) ∧
    List.Chain' (· < ·)
      (0 :: (runPipeline env).events.filterMap JobUpdate.progress) := by
  obtain ⟨ss, hss, hchain, hdisj⟩ := runPipeline_shape env
  rcases hdisj with ⟨_, m, hev⟩ | ⟨hok, _, _⟩
  · refine ⟨?_, ⟨ss, m, hev, hss⟩, hchain⟩
    obtain ⟨hs, hr, he⟩ := applyJob_stages_clean ss _ (t0 + 1)
      (cleanProcessing_initialJob id t0) hss
    have hfin : (finalRegistry id env t0).get id =
        some (applyUpdate (applyJob (initialJob id t0) ss (t0 + 1)) (errUpd m)
          (t0 + 1 + ss.length)) := by
      rw [finalRegistry, postGenerate_empty, applyEvents_singleton,
        Registry.get_singleton, hev, applyJob_append, applyJob_single]
    exact ⟨_, hfin, by simp [applyUpdate, errUpd], by simp [applyUpdate, errUpd],
      by simp [applyUpdate, errUpd], by simp [applyUpdate, errUpd, hr]⟩
  · rw [hfail] at hok; cases hok

theorem generate_failure_records_error_witness :
    envOk envNoKey = false ∧
    (∃ j, (finalRegistry "a" envNoKey 0).get "a" = some j ∧
        j.status = .error ∧ j.error.isSome = true ∧
        j.message = "Произошла ошибка при генерации" ∧ j.result = none) :=
  ⟨by decide, (generate_failure_records_error envNoKey "a" 0 (by decide)).1⟩

/-- C2 counterexample: creating a job under an identifier that already
exists is not a no-op — `jobs.set` overwrites the stored record with
the fresh `processing` one. -/
theorem create_existing_id_overwrites :
    ((postGenerate [("a", staleJob)] "a" 5).1).get "a" = some (initialJob "a" 5) ∧
    initialJob "a" 5 ≠ staleJob := by
  refine ⟨rfl, ?_⟩
  intro h
  exact absurd (congrArg Job.status h) (by decide)

/-- C2 (amended): the create operation always binds the identifier to a
fresh record with `status = processing`, `progress = 0` and the initial
message, overwriting any record already stored under that identifier
(JavaScript `Map.set` semantics) and leaving every other identifier
unchanged. -/
theorem create_always_resets_record (r : Registry) (id : String) (t0 : Nat) :
    ((postGenerate r id t0).1).get id = some (initialJob id t0) ∧
    (postGenerate r id t0).2 = id ∧
    (∀ a, a ≠ id → ((postGenerate r id t0).1).get a = r.get a) := by
  exact ⟨Registry.get_set_self r id _, rfl,
    fun a ha => Registry.get_set_ne r id a _ (Ne.symm ha)⟩

theorem create_always_resets_record_witness :
    ((postGenerate [("a", staleJob)] "a" 5).1).get "b" =
      Registry.get [("a", staleJob)] "b" :=
  (create_always_resets_record [("a", staleJob)] "a" 5).2.2 "b" (by decide)

/-- C3: a completed job's non-empty artifact is retrievable via the
download handler, a successful download schedules deletion of the
record after the fixed `deletionDelay`, and once the scheduled deletion
has fired a repeat fetch returns not-found. -/
theorem download_completed_then_deleted
    (s : ServerState) (id : String) (j : Job) (buf : List Nat)
    (now t1 t2 : Nat)
    (hj : s.reg.get id = some j) (hstatus : j.status = .completed)
    (hres : j.result = some buf) (hbuf : buf ≠ [])
    (ht1 : now + deletionDelay ≤ t1) :
    (downloadHandler s id now).2 = some buf ∧
    (id, now + deletionDelay) ∈ (downloadHandler s id now).1.timers ∧
    Registry.get (fireTimers (downloadHandler s id now).1 t1).reg id = none ∧
    (downloadHandler (fireTimers (downloadHandler s id now).1 t1) id t2).2 =
      none := by
  have hdl : downloadHandler s id now =
      ({ reg := s.reg, timers := s.timers ++ [(id, now + deletionDelay)] },
        some buf) := by
    simp [downloadHandler, hj, hres]
  have hmem : (id, now + deletionDelay) ∈
      ((s.timers ++ [(id, now + deletionDelay)]).filter
        (fun t => decide (t.2 ≤ t1))) :=
    List.mem_filter.mpr
      ⟨List.mem_append_right _ (by simp), by simpa using ht1⟩
  have hgone : Registry.get (fireTimers (downloadHandler s id now).1 t1).reg
      id = none := by
    rw [hdl]
    exact Registry.get_foldl_del_mem _ _ _ (List.mem_map.mpr ⟨_, hmem, rfl⟩)
  refine ⟨by rw [hdl], ?_, hgone, ?_⟩
  · rw [hdl]
    exact List.mem_append_right _ (by simp)
  · set s2 := (fireTimers (downloadHandler s id now).1 t1) with hs2
    simp [downloadHandler, hgone]

theorem download_completed_then_deleted_witness :
    (downloadHandler ⟨[("d", doneJob)], []⟩ "d" 0).2 = some [1] ∧
    Registry.get
      (fireTimers (downloadHandler ⟨[("d", doneJob)], []⟩ "d" 0).1 60000).reg
      "d" = none :=
  let h := download_completed_then_deleted ⟨[("d", doneJob)], []⟩ "d" doneJob
    [1] 0 60000 70000 (by decide) (by decide) (by decide) (by decide)
    (by decide)
  ⟨h.1, h.2.2.1⟩

/-- C4: in every registry state reachable during a run, the job
satisfies the `result`/`error` exclusivity invariant: neither field is
set while `processing`, `result` exactly when `completed`, `error`
exactly when `error`. -/
theorem result_error_exclusivity (env : Env) (id : String) (t0 : Nat) :
    ∀ r ∈ runStates id env t0, ∀ j, Registry.get r id = some j →
      resultErrorInvariant j := by
  intro r hr j hj
  obtain ⟨ss, hss, _, hdisj⟩ := runPipeline_shape env
  rw [runStates, postGenerate_empty, registryTrace_singleton] at hr
  obtain ⟨k, hk, rfl⟩ := List.mem_map.mp hr
  rw [Registry.get_singleton] at hj
  obtain rfl := Option.some.inj hj
  rcases hdisj with ⟨_, m, hev⟩ | ⟨_, b, hev⟩
  · exact jobStates_invariant ss (errUpd m) _ _
      (cleanProcessing_initialJob id t0) hss (Or.inl ⟨m, rfl⟩) _
      (by rw [hev] at hk; exact hk)
  · exact jobStates_invariant ss (completedUpd b) _ _
      (cleanProcessing_initialJob id t0) hss (Or.inr ⟨b, rfl⟩) _
      (by rw [hev] at hk; exact hk)

theorem result_error_exclusivity_witness :
    resultErrorInvariant (initialJob "a" 0) :=
  result_error_exclusivity envAllOk "a" 0 [("a", initialJob "a" 0)]
    (by decide) (initialJob "a" 0) (by decide)

/-- C5: the observed `progress` values are monotonically non-decreasing
across the successive states of a run; a completed job ends with
`progress = 100` and an errored job keeps the progress value it held
just before the failing update (the catch update carries no
`progress`). -/
theorem progress_monotone_and_terminal (env : Env) (id : String) (t0 : Nat) :
    List.Chain' (· ≤ ·)
      ((runStates id env t0).filterMap
        (fun r => (Registry.get r id).map Job.progress)) ∧
    (∀ j, (finalRegistry id env t0).get id = some j →
      (j.status = .completed → j.progress = 100) ∧
      (j.status = .error →
        j.progress =
          (applyJob (initialJob id t0) (runPipeline env).events.dropLast
            (t0 + 1)).progress)) := by
  obtain ⟨ss, hss, hchain, hdisj⟩ := runPipeline_shape env
  constructor
  · rw [runStates, postGenerate_empty, registryTrace_singleton,
      filterMap_singleton_progress]
    exact jobStates_progress_chain _ _ _ (by simpa [initialJob] using hchain)
  · intro j hj
    rw [finalRegistry, postGenerate_empty, applyEvents_singleton,
      Registry.get_singleton] at hj
    obtain rfl := Option.some.inj hj
    rcases hdisj with ⟨_, m, hev⟩ | ⟨_, b, hev⟩
    · rw [hev, applyJob_append, applyJob_single]
      constructor
      · intro hcomp
        simp [applyUpdate, errUpd] at hcomp
      · intro _
        rw [List.dropLast_concat]
        simp [applyUpdate, errUpd]
    · rw [hev, applyJob_append, applyJob_single]
      constructor
      · intro _
        simp [applyUpdate, completedUpd]
      · intro herr
        simp [applyUpdate, completedUpd] at herr

theorem progress_monotone_and_terminal_witness :
    Job.progress
      { id := "a", status := .completed, progress := 100,
        message := "Готово!", result := some [1, 2, 3], error := none,
        lastUpdated := 8 } = 100 :=
  ((progress_monotone_and_terminal envAllOk "a" 0).2
    { id := "a", status := .completed, progress := 100,
      message := "Готово!", result := some [1, 2, 3], error := none,
      lastUpdated := 8 } (by decide)).1 (by decide)

/-- C6: polling returns the stored `{status, progress, message, error}`
for a known identifier and not-found for an unknown one, in any state;
and a poll immediately after `POST /api/generate` observes
`status = processing, progress = 0` with the initial message. -/
theorem status_polling_contract (r : Registry) (id : String) :
    (Registry.get r id = none → statusHandler r id = none) ∧
    (∀ j, Registry.get r id = some j →
      statusHandler r id = some ⟨j.status, j.progress, j.message, j.error⟩) ∧
    (∀ (r0 : Registry) (jid : String) (t0 : Nat),
      statusHandler (postGenerate r0 jid t0).1 (postGenerate r0 jid t0).2 =
        some ⟨.processing, 0, "Инициализация проекта...", none⟩) := by
  refine ⟨fun h => by simp [statusHandler, h],
    fun j hj => by simp [statusHandler, hj],
    fun r0 jid t0 => ?_⟩
  show statusHandler (r0.set jid (initialJob jid t0)) jid = _
  simp [statusHandler, Registry.get_set_self, initialJob]

theorem status_polling_contract_witness :
    statusHandler [] "zzz" = none :=
  (status_polling_contract [] "zzz").1 rfl

/-- C7: when the generation call yields an empty or missing content,
the run never passes through `completed`, never stores an artifact, and
ends in `error` with the "Empty response from AI" description. -/
theorem empty_generation_response_errors (env : Env) (id : String) (t0 : Nat)
    (k : String) (c : Option String)
    (hk : env.apiKey = some k) (hgc : env.gen = .ok c)
    (hcf : contentTruthy c = false) :
    (∀ r ∈ runStates id env t0, ∀ j, Registry.get r id = some j →
      j.status ≠ .completed ∧ j.result = none) ∧
    (∃ j, (finalRegistry id env t0).get id = some j ∧
      j.status = .error ∧ j.error = some "Empty response from AI") := by
  have hev : (runPipeline env).events =
      stages45 ++ [errUpd "Empty response from AI"] := by
    simp [runPipeline, hk, hgc, hcf, stages45, stages10]
  have hss : ∀ u ∈ stages45, isStageUpd u := by decide
  constructor
  · intro r hr j hj
    rw [runStates, postGenerate_empty, registryTrace_singleton] at hr
    obtain ⟨kk, hkk, rfl⟩ := List.mem_map.mp hr
    rw [Registry.get_singleton] at hj
    obtain rfl := Option.some.inj hj
    exact jobStates_error_run stages45 "Empty response from AI" _ _
      (cleanProcessing_initialJob id t0) hss _ (by rw [hev] at hkk; exact hkk)
  · obtain ⟨hs, hr, he⟩ := applyJob_stages_clean stages45 _ (t0 + 1)
      (cleanProcessing_initialJob id t0) hss
    have hfin : (finalRegistry id env t0).get id =
        some (applyUpdate (applyJob (initialJob id t0) stages45 (t0 + 1))
          (errUpd "Empty response from AI") (t0 + 1 + stages45.length)) := by
      rw [finalRegistry, postGenerate_empty, applyEvents_singleton,
        Registry.get_singleton, hev, applyJob_append, applyJob_single]
    have hemp : ("Empty response from AI" : String).isEmpty = false := by
      decide
    exact ⟨_, hfin, by simp [applyUpdate, errUpd],
      by simp [applyUpdate, errUpd, hemp]⟩

theorem empty_generation_response_errors_witness :
    ∃ j, (finalRegistry "a" envEmptyGen 0).get "a" = some j ∧
      j.status = .error ∧ j.error = some "Empty response from AI" :=
  (empty_generation_response_errors envEmptyGen "a" 0 "k" (some "")
    rfl rfl rfl).2

/-- C8: whenever a pipeline run acquires a rendering-engine session
(the puppeteer browser), the `finally` clause releases it, on the
success path and on every failure path alike. -/
theorem browser_always_released (env : Env)
    (h : (runPipeline env).browserAcquired = true) :
    (runPipeline env).browserReleased = true := by
  rw [runPipeline_browser env]
  exact h

theorem browser_always_released_witness :
    (runPipeline envAllOk).browserReleased = true :=
  browser_always_released envAllOk (by decide)

/-- C9 counterexample: an update to an identifier that is not in the
registry returns before the `console.log` statement — the no-op emits
no log line, contrary to the claimed "(logged)". -/
theorem updateJob_unknown_id_unlogged :
    updateJob [] "a" (stageUpd 5 "x") 0 = ([], false) := rfl

/-- C9 (amended): for a known identifier, `updateJob` merges exactly
the given fields into the stored record, refreshes `lastUpdated`,
leaves every other identifier untouched and logs; for an unknown
identifier it is a silent no-op (no log line) that leaves the registry
unchanged, so it never inserts a record. -/
theorem updateJob_merge_contract (r : Registry) (id : String) (u : JobUpdate)
    (now : Nat) :
    (∀ j, Registry.get r id = some j →
      updateJob r id u now = (r.set id (applyUpdate j u now), true) ∧
      (updateJob r id u now).1.get id = some
        { id := j.id
          status := u.status.getD j.status
          progress := u.progress.getD j.progress
          message := u.message.getD j.message
          result := match u.result with | some v => some v | none => j.result
          error := match u.error with | some v => some v | none => j.error
          lastUpdated := now } ∧
      (∀ a, a ≠ id → (updateJob r id u now).1.get a = r.get a)) ∧
    (Registry.get r id = none → updateJob r id u now = (r, false)) := by
  constructor
  · intro j hj
    have h1 : updateJob r id u now = (r.set id (applyUpdate j u now), true) := by
      simp [updateJob, hj]
    refine ⟨h1, ?_, fun a ha => ?_⟩
    · rw [h1]
      exact Registry.get_set_self r id _
    · rw [h1]
      exact Registry.get_set_ne r id a _ (Ne.symm ha)
  · intro h
    simp [updateJob, h]

theorem updateJob_merge_contract_witness :
    (updateJob [("a", staleJob)] "a" (stageUpd 7 "x") 3).1.get "a" = some
      { id := "a", status := .completed, progress := 7, message := "x",
        result := some [7], error := none, lastUpdated := 3 } :=
  ((updateJob_merge_contract [("a", staleJob)] "a" (stageUpd 7 "x") 3).1
    staleJob (by decide)).2.1

/-- C10: `Math.random()` can return `0`, whose base-36 rendering "0" is
shorter than 7 characters, so `substring(7)` yields the empty string as
the job id; the job is nevertheless created under `""` and the status
handler reports it as `processing` at `progress = 0`. -/
theorem empty_jobid_created_and_pollable :
    natToBase36 0 = "0" ∧
    jobIdOfRandomString (natToBase36 0) = "" ∧
    statusHandler
        (postGenerate [] (jobIdOfRandomString (natToBase36 0)) 0).1
        (jobIdOfRandomString (natToBase36 0)) =
      some ⟨.processing, 0, "Инициализация проекта...", none⟩ := by
  decide

end ScholarGen
